import Mathlib

/-!
# Verification of the torus-cli keypair-generation commands and daemon config

Shallow embedding of:

* `cmd/keypairs.go` (`generateKeypairs`, `generateKeypairsForOrg`): the CLI
  commands that ensure organizations have signing and encryption keypairs,
  modelled as pure functions over an explicit registry state together with the
  sequence of registry requests (events) they issue.
* `daemon/config.go` (`NewConfig`): the control-channel root-directory setup,
  modelled over an explicit file-system view.

Registry responses (org lists, keypair lists, generation outcomes) are inputs
of the model: failure injection is recorded in the registry state.
-/

namespace Torus

/-- Key types of `primitive`: `SigningKeyType` and `EncryptionKeyType`. -/
inductive KeyType where
  | signing
  | encryption
deriving DecidableEq, Repr

/-- A keypair as the commands observe it: owning org (`PublicKey.Body.OrgID`),
key type (`PublicKey.Body.KeyType`), and the nullable revocation timestamp
from which `Revoked()` is derived. -/
structure Keypair where
  orgID : Nat
  keyType : KeyType
  revokedAt : Option Nat
deriving DecidableEq, Repr

/-- `Keypair.Revoked()`: true iff the revocation timestamp is set. -/
def Keypair.Revoked (kp : Keypair) : Bool :=
  kp.revokedAt.isSome

/-- The registry as the commands observe it: the keypairs it stores, plus
failure injection for `Keypairs.List` and `Keypairs.Generate` per org id. -/
structure RegState where
  keypairs : List Keypair
  listFail : List Nat
  genFail : List Nat
deriving DecidableEq, Repr

/-- `client.Keypairs.List(c, orgID)` on success: the keypairs of that org,
revoked ones included. -/
def listKeypairs (st : RegState) (o : Nat) : List Keypair :=
  st.keypairs.filter (fun kp => kp.orgID == o)

/-- Whether the org has a non-revoked keypair of the given type. -/
def activeOf (st : RegState) (o : Nat) (t : KeyType) : Bool :=
  (listKeypairs st o).any (fun kp => !kp.Revoked && kp.keyType == t)

/-- The spec's "key-complete": both a non-revoked signing and a non-revoked
encryption keypair exist. -/
def keyComplete (st : RegState) (o : Nat) : Bool :=
  activeOf st o .signing && activeOf st o .encryption

/-- Registry effect of storing one fresh (non-revoked) keypair. -/
def addKeypair (st : RegState) (o : Nat) (t : KeyType) : RegState :=
  { st with keypairs := ⟨o, t, none⟩ :: st.keypairs }

/-- Modelled from the spec: the registry collaborator's `keypairs.generate`
(§6) "generates both missing key types server-side"; the registry service is
not part of src/. On success the org gains a non-revoked keypair of each type
it lacked. -/
def generateEffect (st : RegState) (o : Nat) : RegState :=
  let st1 := if activeOf st o .signing then st else addKeypair st o .signing
  if activeOf st1 o .encryption then st1 else addKeypair st1 o .encryption

/-- Registry requests issued by the commands, in order. -/
inductive Event where
  | listOrgs
  | getByName (name : String)
  | listKeypairs (o : Nat)
  | generate (o : Nat)
deriving DecidableEq, Repr

/-- Whether an event is a `Keypairs.Generate` request. -/
def Event.isGenerate : Event → Bool
  | .generate _ => true
  | _ => false

/-- Whether an event is a `Keypairs.List` request. -/
def Event.isListKeypairs : Event → Bool
  | .listKeypairs _ => true
  | _ => false

/-- The errors `generateKeypairs` / `generateKeypairsForOrg` return
(`errs.NewExitError` messages). Every constructor is a bare message: none
carries a succeeded or failed set. -/
inductive CmdError where
  | orgsRetrieveFailed
  | missingOrgFlag
  | orgNotFound (name : String)
  | fetchContextFailed
  | regenFailed
  | generateForOrgFailed
deriving DecidableEq, Repr

/-- The `hasKey` facts contributed by one org's listing: one
`(kp.PublicKey.Body.OrgID, kp.PublicKey.Body.KeyType)` pair per non-revoked
keypair (`if kp.Revoked() { continue }`). -/
def activeKeyFacts (st : RegState) (o : Nat) : List (Nat × KeyType) :=
  ((listKeypairs st o).filter (fun kp => !kp.Revoked)).map
    (fun kp => (kp.orgID, kp.keyType))

/-- The first loop of `generateKeypairs`: list each target org's keypairs and
accumulate `hasKey`; on a listing error set `pErr` and `break`.
Returns (events issued, `hasKey` facts, whether `pErr` was set). -/
def listLoop (st : RegState) : List Nat → List Event × List (Nat × KeyType) × Bool
  | [] => ([], [], false)
  | o :: rest =>
    if st.listFail.contains o then
      ([Event.listKeypairs o], [], true)
    else
      let r := listLoop st rest
      (Event.listKeypairs o :: r.1, activeKeyFacts st o ++ r.2.1, r.2.2)

/-- `hasKey[o][t]` lookup on the accumulated facts. -/
def hasKey (facts : List (Nat × KeyType)) (o : Nat) (t : KeyType) : Bool :=
  decide ((o, t) ∈ facts)

/-- The `regenOrgs` computation: orgs for which
`!hasKey[*orgID][EncryptionKeyType] || !hasKey[*orgID][SigningKeyType]`. -/
def regenOrgsOf (facts : List (Nat × KeyType)) (orgs : List Nat) : List Nat :=
  orgs.filter (fun o => !hasKey facts o .encryption || !hasKey facts o .signing)

/-- The final loop of `generateKeypairs`: issue `Keypairs.Generate` for each
org in `regenOrgs`; on the first error set `rErr` and `break`.
Returns (events issued, resulting registry state, whether `rErr` was set). -/
def regenLoop (st : RegState) : List Nat → List Event × RegState × Bool
  | [] => ([], st, false)
  | o :: rest =>
    if st.genFail.contains o then
      ([Event.generate o], st, true)
    else
      let r := regenLoop (generateEffect st o) rest
      (Event.generate o :: r.1, r.2.1, r.2.2)

/-- The shared tail of `generateKeypairs` once `subjectOrgs` is known: build
`hasKey` (aborting with "Error fetching required context." if `pErr`), compute
`regenOrgs`, run the generation loop (aborting with "Error while regenerating
keypairs." if `rErr`). -/
def processOrgs (st : RegState) (orgs : List Nat) :
    List Event × RegState × Option CmdError :=
  let l := listLoop st orgs
  if l.2.2 then
    (l.1, st, some .fetchContextFailed)
  else
    let g := regenLoop st (regenOrgsOf l.2.1 orgs)
    if g.2.2 then
      (l.1 ++ g.1, g.2.1, some .regenFailed)
    else
      (l.1 ++ g.1, g.2.1, none)

/-- `generateKeypairs` (cmd/keypairs.go): with `--all`, enumerate all orgs via
`Orgs.List` (`orgsList = none` models its failure); otherwise resolve the
`--org` flag via `Orgs.GetByName` (`byName = none` models error or no org).
Returns (registry requests in order, resulting registry state, error). -/
def generateKeypairsCmd (st : RegState) (allFlag : Bool) (orgName : String)
    (orgsList : Option (List Nat)) (byName : Option Nat) :
    List Event × RegState × Option CmdError :=
  if allFlag then
    match orgsList with
    | none => ([Event.listOrgs], st, some .orgsRetrieveFailed)
    | some orgs =>
      let r := processOrgs st orgs
      (Event.listOrgs :: r.1, r.2.1, r.2.2)
  else
    if orgName = "" then
      ([], st, some .missingOrgFlag)
    else
      match byName with
      | none => ([Event.getByName orgName], st, some (.orgNotFound orgName))
      | some oid =>
        let r := processOrgs st [oid]
        (Event.getByName orgName :: r.1, r.2.1, r.2.2)

/-- `generateKeypairsForOrg` (cmd/keypairs.go): the single-org fallback path.
With a nil `orgID` and `lookupOrg` false it fails outright; with a nil `orgID`
and `lookupOrg` true it takes the first org of `Orgs.List` (`orgsList = none`
models its failure); then it calls `Keypairs.Generate` unconditionally. -/
def generateKeypairsForOrg (st : RegState) (orgID : Option Nat)
    (lookupOrg : Bool) (orgsList : Option (List Nat)) :
    List Event × RegState × Option CmdError :=
  match orgID, lookupOrg with
  | none, false => ([], st, some .generateForOrgFailed)
  | none, true =>
    match orgsList with
    | none => ([Event.listOrgs], st, some .generateForOrgFailed)
    | some [] => ([Event.listOrgs], st, some .generateForOrgFailed)
    | some (o :: _) =>
      if st.genFail.contains o then
        ([Event.listOrgs, Event.generate o], st, some .generateForOrgFailed)
      else
        ([Event.listOrgs, Event.generate o], generateEffect st o, none)
  | some oid, _ =>
    if st.genFail.contains oid then
      ([Event.generate oid], st, some .generateForOrgFailed)
    else
      ([Event.generate oid], generateEffect st oid, none)

/-- Number of `Keypairs.Generate` requests in a trace. -/
def genCount (tr : List Event) : Nat :=
  (tr.filter (fun e => e.isGenerate)).length

/-- The orgs for which the `regenOrgs` loop actually issues a
`Keypairs.Generate` request: every org in order up to and including the first
one whose generation fails (`rErr` + `break`). -/
def genAttempts (gf : List Nat) : List Nat → List Nat
  | [] => []
  | o :: rest => if gf.contains o then [o] else o :: genAttempts gf rest

end Torus

namespace Daemon

/-- `os.Stat` outcome for the root directory: absent (`IsNotExist`), some
other stat error, or an entry with its directory flag and permission bits. -/
inductive StatResult where
  | notExist
  | statErr
  | entry (isDir : Bool) (perm : Nat)
deriving DecidableEq, Repr

/-- The file-system view `NewConfig` runs against: the initial `os.Stat`
result for the root, the process umask (applied by `os.Mkdir`), and whether
`os.Mkdir` itself errors. -/
structure FileSys where
  stat0 : StatResult
  umask : Nat
  mkdirFails : Bool
deriving DecidableEq, Repr

/-- `REQUIRED_PERM = 0700`. -/
def REQUIRED_PERM : Nat := 0o700

/-- `path.Join` on a clean directory path and a bare file name. -/
def pathJoin (a b : String) : String :=
  if a = "" then b else a ++ "/" ++ b

/-- Root-path defaulting: an empty argument becomes `$HOME/.arigato`. -/
def resolveRoot (home root : String) : String :=
  if root.length = 0 then pathJoin home ".arigato" else root

/-- Permission bits of a directory created by `os.Mkdir(root, 0700)`: the
requested mode masked by the process umask. -/
def mkdirResultPerm (umask : Nat) : Nat :=
  REQUIRED_PERM &&& (0o777 ^^^ (umask &&& 0o777))

/-- The daemon `Config` built on success. -/
structure Config where
  arigatoRoot : String
  socketPath : String
  pidPath : String
  version : String
deriving DecidableEq, Repr

/-- The error cases of `NewConfig`. -/
inductive ConfigError where
  | statFailed
  | notADir (p : String)
  | mkdirFailed
  | badPerm (p : String) (perm : Nat)
deriving DecidableEq, Repr

/-- `NewConfig` (daemon/config.go): default the root, stat it; a non-NotExist
stat error or a non-directory is fatal; if absent, create it with
`REQUIRED_PERM` (and re-stat); then reject any permission mode different from
`REQUIRED_PERM`; otherwise build the `Config` with the socket and pid paths
joined under the root. -/
def NewConfig (fs : FileSys) (home root : String) : Except ConfigError Config :=
  let r := resolveRoot home root
  let mkCfg : Nat → Except ConfigError Config := fun perm =>
    if perm ≠ REQUIRED_PERM then
      .error (.badPerm r perm)
    else
      .ok { arigatoRoot := r
            socketPath := pathJoin r "daemon.socket"
            pidPath := pathJoin r "daemon.pid"
            version := "development" }
  match fs.stat0 with
  | .statErr => .error .statFailed
  | .entry isDir perm =>
    if !isDir then .error (.notADir r) else mkCfg perm
  | .notExist =>
    if fs.mkdirFails then .error .mkdirFailed
    else mkCfg (mkdirResultPerm fs.umask)

/-! Helper lemmas about `NewConfig`. -/

lemma perm_ne_700_of_other_bits (perm : Nat) (h : perm &&& 0o077 ≠ 0) :
    perm ≠ REQUIRED_PERM := by
  intro he
  subst he
  exact h (by decide)

set_option maxRecDepth 4096 in
lemma land_xor_mask_eq : ∀ m < 512, m &&& 448 = 0 → 448 &&& (511 ^^^ m) = 448 := by
  decide

lemma mkdirResultPerm_eq_700 (u : Nat) (h : u &&& 0o700 = 0) :
    mkdirResultPerm u = REQUIRED_PERM := by
  have hb : u &&& 0o777 < 512 := lt_of_le_of_lt Nat.and_le_right (by norm_num)
  have h448 : (511 : Nat) &&& 448 = 448 := by decide
  have h2 : (u &&& 0o777) &&& 448 = 0 := by
    rw [Nat.land_assoc, h448]
    exact h
  have h3 := land_xor_mask_eq (u &&& 0o777) hb h2
  simpa [mkdirResultPerm, REQUIRED_PERM] using h3

lemma newConfig_ok_shape (fs : FileSys) (home root : String) (cfg : Config)
    (h : NewConfig fs home root = .ok cfg) :
    cfg = ⟨resolveRoot home root,
           pathJoin (resolveRoot home root) "daemon.socket",
           pathJoin (resolveRoot home root) "daemon.pid",
           "development"⟩ := by
  simp only [NewConfig] at h
  split at h
  · exact Except.noConfusion h
  · split at h
    · exact Except.noConfusion h
    · split at h
      · exact Except.noConfusion h
      · exact (Except.ok.inj h).symm
  · split at h
    · exact Except.noConfusion h
    · split at h
      · exact Except.noConfusion h
      · exact (Except.ok.inj h).symm

/-- C4: starting the control channel against an existing root directory whose
permission mode grants any group or other access (some bit of `0o077` set, so
broader than owner-only `0700`) fails with the permission error and produces
no `Config`: `NewConfig` returns the `badPerm` error instead of binding. -/
theorem newConfig_rejects_group_other_access (fs : FileSys) (home root : String)
    (perm : Nat) (hstat : fs.stat0 = .entry true perm)
    (hperm : perm &&& 0o077 ≠ 0) :
    NewConfig fs home root = .error (.badPerm (resolveRoot home root) perm) := by
  have hne := perm_ne_700_of_other_bits perm hperm
  simp [NewConfig, hstat, hne]

/-- Witness for C4: an existing directory with mode `0o750` is rejected. -/
theorem newConfig_rejects_group_other_access_witness :
    NewConfig ⟨.entry true 0o750, 0o022, false⟩ "/h" "/tmp/ari"
      = .error (.badPerm "/tmp/ari" 0o750) :=
  newConfig_rejects_group_other_access _ _ _ _ rfl (by decide)

/-- C8: `NewConfig` rejects every existing root directory whose permission
bits differ from `0700` in any direction — also strictly more restrictive
modes such as `0500` or `0600` — returning the `badPerm` error. -/
theorem newConfig_rejects_any_non_0700 (fs : FileSys) (home root : String)
    (perm : Nat) (hstat : fs.stat0 = .entry true perm)
    (hperm : perm ≠ 0o700) :
    NewConfig fs home root = .error (.badPerm (resolveRoot home root) perm) := by
  have hne : perm ≠ REQUIRED_PERM := by simpa [REQUIRED_PERM] using hperm
  simp [NewConfig, hstat, hne]

/-- Witness for C8: an existing directory with the strictly more restrictive
mode `0o500` is also rejected. -/
theorem newConfig_rejects_any_non_0700_witness :
    NewConfig ⟨.entry true 0o500, 0o022, false⟩ "/h" "/tmp/ari"
      = .error (.badPerm "/tmp/ari" 0o500) :=
  newConfig_rejects_any_non_0700 _ _ _ _ rfl (by decide)

/-- C7: if the root directory does not exist, `NewConfig` creates it with the
owner-only mode `0700` and succeeds, returning a `Config` whose root is that
directory; absence of the directory is not a startup failure. Stated for an
environment in which `os.Mkdir` itself succeeds and the process umask does not
mask owner bits (the umask never masks owner bits in practice). -/
theorem newConfig_creates_missing_root (fs : FileSys) (home root : String)
    (h1 : fs.stat0 = .notExist) (h2 : fs.mkdirFails = false)
    (h3 : fs.umask &&& 0o700 = 0) :
    mkdirResultPerm fs.umask = REQUIRED_PERM ∧
    NewConfig fs home root =
      .ok ⟨resolveRoot home root,
           pathJoin (resolveRoot home root) "daemon.socket",
           pathJoin (resolveRoot home root) "daemon.pid",
           "development"⟩ := by
  have hp := mkdirResultPerm_eq_700 fs.umask h3
  refine ⟨hp, ?_⟩
  simp [NewConfig, h1, h2, hp]

/-- Witness for C7: with umask `0o022`, a missing root is created with mode
`0700` and `NewConfig` succeeds. -/
theorem newConfig_creates_missing_root_witness :
    mkdirResultPerm 0o022 = REQUIRED_PERM ∧
    NewConfig ⟨.notExist, 0o022, false⟩ "/h" "" =
      .ok ⟨"/h/.arigato", "/h/.arigato/daemon.socket", "/h/.arigato/daemon.pid",
           "development"⟩ :=
  newConfig_creates_missing_root ⟨.notExist, 0o022, false⟩ "/h" "" rfl rfl
    (by decide)

/-- C10: with an empty root-path argument `NewConfig` uses `.arigato` under
the caller's HOME as the root, and on every successful return the `Config`'s
socket path is the root joined with `daemon.socket` and its pid path the root
joined with `daemon.pid`. -/
theorem newConfig_default_root_and_paths (fs : FileSys) (home root : String)
    (cfg : Config) (h : NewConfig fs home root = .ok cfg) :
    (root.length = 0 → cfg.arigatoRoot = pathJoin home ".arigato") ∧
    cfg.socketPath = pathJoin cfg.arigatoRoot "daemon.socket" ∧
    cfg.pidPath = pathJoin cfg.arigatoRoot "daemon.pid" := by
  have hs := newConfig_ok_shape fs home root cfg h
  subst hs
  refine ⟨fun hr => ?_, rfl, rfl⟩
  simp [resolveRoot, hr]

/-- Witness for C10: a concrete successful run with an empty root argument. -/
theorem newConfig_default_root_and_paths_witness :
    (("" : String).length = 0 →
      ("/h/.arigato" : String) = pathJoin "/h" ".arigato") ∧
    ("/h/.arigato/daemon.socket" : String)
      = pathJoin "/h/.arigato" "daemon.socket" ∧
    ("/h/.arigato/daemon.pid" : String)
      = pathJoin "/h/.arigato" "daemon.pid" :=
  newConfig_default_root_and_paths ⟨.entry true 0o700, 0o022, false⟩ "/h" ""
    ⟨"/h/.arigato", "/h/.arigato/daemon.socket", "/h/.arigato/daemon.pid",
     "development"⟩ rfl

end Daemon

namespace Torus

/-! Helper lemmas about the registry model and the command loops. -/

lemma generateEffect_genFail (st : RegState) (o : Nat) :
    (generateEffect st o).genFail = st.genFail := by
  simp only [generateEffect, addKeypair]
  split <;> split <;> rfl

lemma generateEffect_listFail (st : RegState) (o : Nat) :
    (generateEffect st o).listFail = st.listFail := by
  simp only [generateEffect, addKeypair]
  split <;> split <;> rfl

lemma listLoop_all_listKeypairs (st : RegState) (orgs : List Nat) :
    ∀ e ∈ (listLoop st orgs).1, e.isListKeypairs = true := by
  induction orgs with
  | nil => simp [listLoop]
  | cons o rest ih =>
    intro e he
    by_cases h : o ∈ st.listFail
    · simp [listLoop, h] at he
      simp [he, Event.isListKeypairs]
    · simp [listLoop, h] at he
      rcases he with rfl | he
      · simp [Event.isListKeypairs]
      · exact ih e he

lemma regenLoop_all_generate (l : List Nat) : ∀ (st : RegState),
    ∀ e ∈ (regenLoop st l).1, e.isGenerate = true := by
  induction l with
  | nil => simp [regenLoop]
  | cons o rest ih =>
    intro st e he
    by_cases h : o ∈ st.genFail
    · simp [regenLoop, h] at he
      simp [he, Event.isGenerate]
    · simp [regenLoop, h] at he
      rcases he with rfl | he
      · simp [Event.isGenerate]
      · exact ih (generateEffect st o) e he

lemma regenLoop_events (l : List Nat) : ∀ (st : RegState),
    (regenLoop st l).1 = (genAttempts st.genFail l).map Event.generate := by
  induction l with
  | nil => intro st; rfl
  | cons o rest ih =>
    intro st
    by_cases h : o ∈ st.genFail
    · simp [regenLoop, genAttempts, h]
    · simp [regenLoop, genAttempts, h, ih (generateEffect st o),
        generateEffect_genFail]

lemma regenLoop_rerr (l : List Nat) : ∀ (st : RegState),
    (regenLoop st l).2.2 = l.any (fun o => st.genFail.contains o) := by
  induction l with
  | nil => intro st; rfl
  | cons o rest ih =>
    intro st
    by_cases h : o ∈ st.genFail
    · simp [regenLoop, h]
    · simp [regenLoop, h, ih (generateEffect st o), generateEffect_genFail]

lemma listLoop_perr (st : RegState) (orgs : List Nat) :
    (listLoop st orgs).2.2 = orgs.any (fun o => st.listFail.contains o) := by
  induction orgs with
  | nil => rfl
  | cons o rest ih =>
    by_cases h : o ∈ st.listFail
    · simp [listLoop, h]
    · simp [listLoop, h, ih]

lemma listLoop_count_le (st : RegState) (orgs : List Nat) (o : Nat) :
    (listLoop st orgs).1.count (Event.listKeypairs o) ≤ orgs.count o := by
  induction orgs with
  | nil => simp [listLoop]
  | cons o' rest ih =>
    by_cases he : o' = o
    · subst he
      by_cases h : o' ∈ st.listFail <;>
        simp [listLoop, h, List.count_cons] <;> omega
    · by_cases h : o' ∈ st.listFail <;>
        simp [listLoop, h, he, List.count_cons] <;> try omega

lemma mem_listLoop_facts (st : RegState) (orgs : List Nat)
    (h : st.listFail = []) (p : Nat × KeyType) :
    p ∈ (listLoop st orgs).2.1 ↔ ∃ o ∈ orgs, p ∈ activeKeyFacts st o := by
  induction orgs with
  | nil => simp [listLoop]
  | cons o rest ih =>
    simp [listLoop, h, ih]

lemma activeOf_eq_true_iff (st : RegState) (o : Nat) (t : KeyType) :
    activeOf st o t = true ↔
      ∃ kp ∈ listKeypairs st o, kp.Revoked = false ∧ kp.keyType = t := by
  simp [activeOf, List.any_eq_true, Bool.and_eq_true, Bool.not_eq_true']

lemma mem_activeKeyFacts (st : RegState) (a b : Nat) (t : KeyType) :
    ((a, t) ∈ activeKeyFacts st b) ↔ (a = b ∧ activeOf st b t = true) := by
  simp only [activeKeyFacts, List.mem_map, List.mem_filter,
    activeOf_eq_true_iff, Prod.mk.injEq, Bool.not_eq_true']
  constructor
  · rintro ⟨kp, ⟨hmem, hrev⟩, horg, ht⟩
    have hb : kp.orgID = b := by
      have := (List.mem_filter.mp hmem).2
      simpa [listKeypairs] using this
    exact ⟨by rw [horg] at hb; exact hb, kp, hmem, hrev, ht⟩
  · rintro ⟨rfl, kp, hmem, hrev, ht⟩
    have hb : kp.orgID = a := by
      have := (List.mem_filter.mp hmem).2
      simpa [listKeypairs] using this
    exact ⟨kp, ⟨hmem, hrev⟩, hb, ht⟩

lemma hasKey_iff (facts : List (Nat × KeyType)) (o : Nat) (t : KeyType) :
    hasKey facts o t = true ↔ (o, t) ∈ facts := by
  simp [hasKey]

lemma hasKey_activeKeyFacts_self (st : RegState) (o : Nat) (t : KeyType) :
    hasKey (activeKeyFacts st o) o t = activeOf st o t := by
  by_cases h : activeOf st o t = true
  · simp [hasKey, mem_activeKeyFacts, h]
  · simp only [Bool.not_eq_true] at h
    simp [hasKey, mem_activeKeyFacts, h]

lemma mem_regenOrgsOf (facts : List (Nat × KeyType)) (orgs : List Nat)
    (o : Nat) :
    o ∈ regenOrgsOf facts orgs ↔
      o ∈ orgs ∧ (hasKey facts o .encryption = false ∨
                  hasKey facts o .signing = false) := by
  simp [regenOrgsOf, List.mem_filter, Bool.or_eq_true, Bool.not_eq_true']

lemma activeOf_addKeypair_self (st : RegState) (o : Nat) (t : KeyType) :
    activeOf (addKeypair st o t) o t = true := by
  simp [activeOf, addKeypair, listKeypairs, Keypair.Revoked]

lemma activeOf_addKeypair_mono (st : RegState) (a b : Nat) (t t' : KeyType)
    (h : activeOf st a t = true) :
    activeOf (addKeypair st b t') a t = true := by
  rw [activeOf_eq_true_iff] at h ⊢
  obtain ⟨kp, hmem, hrev, ht⟩ := h
  refine ⟨kp, ?_, hrev, ht⟩
  simp only [listKeypairs, addKeypair, List.mem_filter] at hmem ⊢
  exact ⟨List.mem_cons_of_mem _ hmem.1, hmem.2⟩

lemma keyComplete_generateEffect (st : RegState) (o : Nat) :
    keyComplete (generateEffect st o) o = true := by
  simp only [generateEffect]
  by_cases hs : activeOf st o KeyType.signing = true
  · rw [if_pos hs]
    by_cases he : activeOf st o KeyType.encryption = true
    · rw [if_pos he]
      simp [keyComplete, hs, he]
    · rw [if_neg he]
      simp only [keyComplete, Bool.and_eq_true]
      exact ⟨activeOf_addKeypair_mono st o o _ _ hs,
             activeOf_addKeypair_self st o _⟩
  · rw [if_neg hs]
    by_cases he : activeOf (addKeypair st o KeyType.signing) o
        KeyType.encryption = true
    · rw [if_pos he]
      simp only [keyComplete, Bool.and_eq_true]
      exact ⟨activeOf_addKeypair_self st o _, he⟩
    · rw [if_neg he]
      simp only [keyComplete, Bool.and_eq_true]
      exact ⟨activeOf_addKeypair_mono _ o o _ _ (activeOf_addKeypair_self st o _),
             activeOf_addKeypair_self _ o _⟩

lemma listLoop_no_generate (st : RegState) (orgs : List Nat) :
    ∀ e ∈ (listLoop st orgs).1, e.isGenerate = false := by
  intro e he
  have h := listLoop_all_listKeypairs st orgs e he
  cases e <;> simp_all [Event.isGenerate, Event.isListKeypairs]

lemma regenLoop_no_list (st : RegState) (l : List Nat) :
    ∀ e ∈ (regenLoop st l).1, e.isListKeypairs = false := by
  intro e he
  have h := regenLoop_all_generate l st e he
  cases e <;> simp_all [Event.isGenerate, Event.isListKeypairs]

lemma listOrgs_not_mem_listLoop (st : RegState) (orgs : List Nat) :
    Event.listOrgs ∉ (listLoop st orgs).1 := by
  intro h
  have := listLoop_all_listKeypairs st orgs _ h
  simp [Event.isListKeypairs] at this

lemma listOrgs_not_mem_regenLoop (st : RegState) (l : List Nat) :
    Event.listOrgs ∉ (regenLoop st l).1 := by
  intro h
  have := regenLoop_all_generate l st _ h
  simp [Event.isGenerate] at this

lemma generate_not_mem_listLoop (st : RegState) (orgs : List Nat) (o : Nat) :
    Event.generate o ∉ (listLoop st orgs).1 := by
  intro h
  have := listLoop_all_listKeypairs st orgs _ h
  simp [Event.isListKeypairs] at this

lemma listKeypairs_not_mem_regenLoop (st : RegState) (l : List Nat) (o : Nat) :
    Event.listKeypairs o ∉ (regenLoop st l).1 := by
  intro h
  have := regenLoop_all_generate l st _ h
  simp [Event.isGenerate] at this

lemma regen_single (st : RegState) (oid : Nat) :
    regenOrgsOf (activeKeyFacts st oid) [oid] =
      if keyComplete st oid then [] else [oid] := by
  cases hs : activeOf st oid KeyType.signing <;>
    cases he : activeOf st oid KeyType.encryption <;>
      simp [regenOrgsOf, hasKey_activeKeyFacts_self, keyComplete, hs, he]

lemma processOrgs_single (st : RegState) (oid : Nat)
    (hl : oid ∉ st.listFail) :
    processOrgs st [oid] =
      if keyComplete st oid then
        ([Event.listKeypairs oid], st, none)
      else if oid ∈ st.genFail then
        ([Event.listKeypairs oid, Event.generate oid], st,
          some CmdError.regenFailed)
      else
        ([Event.listKeypairs oid, Event.generate oid], generateEffect st oid,
          none) := by
  have h1 : listLoop st [oid] =
      ([Event.listKeypairs oid], activeKeyFacts st oid, false) := by
    simp [listLoop, hl]
  by_cases hk : keyComplete st oid = true
  · simp [processOrgs, h1, regen_single, hk, regenLoop]
  · by_cases hg : oid ∈ st.genFail
    · simp [processOrgs, h1, regen_single, hk, hg, regenLoop]
    · simp [processOrgs, h1, regen_single, hk, hg, regenLoop]

lemma generateKeypairsCmd_single (st : RegState) (name : String) (oid : Nat)
    (hname : ¬ name = "") (hl : oid ∉ st.listFail) :
    generateKeypairsCmd st false name none (some oid) =
      if keyComplete st oid then
        ([Event.getByName name, Event.listKeypairs oid], st, none)
      else if oid ∈ st.genFail then
        ([Event.getByName name, Event.listKeypairs oid, Event.generate oid],
          st, some CmdError.regenFailed)
      else
        ([Event.getByName name, Event.listKeypairs oid, Event.generate oid],
          generateEffect st oid, none) := by
  rw [generateKeypairsCmd]
  rw [if_neg (by simp : ¬ (false : Bool) = true), if_neg hname]
  rw [processOrgs_single st oid hl]
  by_cases hk : keyComplete st oid = true
  · simp [hk]
  · by_cases hg : oid ∈ st.genFail <;> simp [hk, hg]

/-- C2: calling `generateKeypairs` for one org twice in sequence, with no
intervening revocation and a healthy registry, issues at most one generation
request in total, succeeds both times, and leaves the organization
key-complete after either call; in particular the second call (on the then
key-complete organization) issues zero generation requests. -/
theorem ensureKeypairs_idempotent (st : RegState) (name : String) (oid : Nat)
    (hname : name ≠ "") (hl : oid ∉ st.listFail) (hg : oid ∉ st.genFail) :
    genCount (generateKeypairsCmd st false name none (some oid)).1 +
      genCount (generateKeypairsCmd
        (generateKeypairsCmd st false name none (some oid)).2.1
        false name none (some oid)).1 ≤ 1 ∧
    (generateKeypairsCmd st false name none (some oid)).2.2 = none ∧
    (generateKeypairsCmd (generateKeypairsCmd st false name none (some oid)).2.1
      false name none (some oid)).2.2 = none ∧
    keyComplete (generateKeypairsCmd st false name none (some oid)).2.1 oid
      = true ∧
    keyComplete (generateKeypairsCmd
      (generateKeypairsCmd st false name none (some oid)).2.1
      false name none (some oid)).2.1 oid = true ∧
    genCount (generateKeypairsCmd
      (generateKeypairsCmd st false name none (some oid)).2.1
      false name none (some oid)).1 = 0 ∧
    (keyComplete st oid = true →
      genCount (generateKeypairsCmd st false name none (some oid)).1 = 0) := by
  have h1 := generateKeypairsCmd_single st name oid hname hl
  by_cases hk : keyComplete st oid = true
  · rw [if_pos hk] at h1
    rw [h1]
    simp only []
    rw [h1]
    simp [genCount, Event.isGenerate, hk]
  · rw [if_neg hk, if_neg hg] at h1
    rw [h1]
    simp only []
    have hl2 : oid ∉ (generateEffect st oid).listFail := by
      rw [generateEffect_listFail]; exact hl
    have h2 := generateKeypairsCmd_single (generateEffect st oid) name oid
      hname hl2
    have hk2 := keyComplete_generateEffect st oid
    rw [if_pos hk2] at h2
    rw [h2]
    simp [genCount, Event.isGenerate, hk2, hk]

/-- Witness for C2: a fresh registry with no keypairs for org 1. -/
theorem ensureKeypairs_idempotent_witness :
    genCount (generateKeypairsCmd ⟨[], [], []⟩ false "acme" none (some 1)).1 +
      genCount (generateKeypairsCmd
        (generateKeypairsCmd ⟨[], [], []⟩ false "acme" none (some 1)).2.1
        false "acme" none (some 1)).1 ≤ 1 ∧
    (generateKeypairsCmd ⟨[], [], []⟩ false "acme" none (some 1)).2.2 = none ∧
    (generateKeypairsCmd
      (generateKeypairsCmd ⟨[], [], []⟩ false "acme" none (some 1)).2.1
      false "acme" none (some 1)).2.2 = none ∧
    keyComplete
      (generateKeypairsCmd ⟨[], [], []⟩ false "acme" none (some 1)).2.1 1
      = true ∧
    keyComplete (generateKeypairsCmd
      (generateKeypairsCmd ⟨[], [], []⟩ false "acme" none (some 1)).2.1
      false "acme" none (some 1)).2.1 1 = true ∧
    genCount (generateKeypairsCmd
      (generateKeypairsCmd ⟨[], [], []⟩ false "acme" none (some 1)).2.1
      false "acme" none (some 1)).1 = 0 ∧
    (keyComplete (⟨[], [], []⟩ : RegState) 1 = true →
      genCount
        (generateKeypairsCmd ⟨[], [], []⟩ false "acme" none (some 1)).1 = 0) :=
  ensureKeypairs_idempotent ⟨[], [], []⟩ "acme" 1 (by decide)
    (List.not_mem_nil 1) (List.not_mem_nil 1)

/-- C3: revoked keypairs are treated as absent by the key-completeness
computation of the bulk path, for either key type: if every keypair of org `o`
of type `t` (Signing or Encryption) is revoked, `o` is selected for
regeneration (member of `regenOrgs`) even though the keypair listing still
returns the revoked keypair `k`. -/
theorem revoked_keypair_excluded (st : RegState) (orgs : List Nat)
    (o : Nat) (k : Keypair) (t : KeyType) (hfail : st.listFail = [])
    (ho : o ∈ orgs) (hk : k ∈ listKeypairs st o)
    (hkt : k.keyType = t)
    (hrev : ∀ k' ∈ listKeypairs st o, k'.keyType = t → k'.Revoked = true) :
    o ∈ regenOrgsOf (listLoop st orgs).2.1 orgs ∧
    k ∈ listKeypairs st o ∧ k.Revoked = true := by
  have hks : k.Revoked = true := hrev k hk hkt
  have hmemf : ¬ ((o, t) ∈ (listLoop st orgs).2.1) := by
    intro hmem
    rw [mem_listLoop_facts st orgs hfail] at hmem
    obtain ⟨b, hb, hfact⟩ := hmem
    rw [mem_activeKeyFacts] at hfact
    obtain ⟨rfl, hact⟩ := hfact
    rw [activeOf_eq_true_iff] at hact
    obtain ⟨kp, hkp, hnr, hts⟩ := hact
    rw [hrev kp hkp hts] at hnr
    exact Bool.noConfusion hnr
  have hfalse : hasKey (listLoop st orgs).2.1 o t = false := by
    cases hcase : hasKey (listLoop st orgs).2.1 o t
    · rfl
    · exact absurd ((hasKey_iff _ _ _).mp hcase) hmemf
  refine ⟨?_, hk, hks⟩
  rw [mem_regenOrgsOf]
  refine ⟨ho, ?_⟩
  cases t
  · exact Or.inr hfalse
  · exact Or.inl hfalse

/-- Witness for C3, on the encryption side: org 2's only encryption keypair
is revoked while its signing keypair is active, so org 2 is selected for
regeneration even though the listing still returns the revoked keypair. -/
theorem revoked_keypair_excluded_witness :
    (2 ∈ regenOrgsOf
      (listLoop ⟨[⟨2, .encryption, some 5⟩, ⟨2, .signing, none⟩], [], []⟩
        [2]).2.1 [2]) ∧
    (⟨2, .encryption, some 5⟩ : Keypair) ∈
      listKeypairs ⟨[⟨2, .encryption, some 5⟩, ⟨2, .signing, none⟩], [], []⟩
        2 ∧
    (Keypair.mk 2 .encryption (some 5)).Revoked = true :=
  revoked_keypair_excluded
    ⟨[⟨2, .encryption, some 5⟩, ⟨2, .signing, none⟩], [], []⟩ [2] 2
    ⟨2, .encryption, some 5⟩ .encryption rfl (by decide) (by decide) rfl
    (by decide)

lemma generateKeypairsCmd_all (st : RegState) (orgs : List Nat) :
    generateKeypairsCmd st true "" (some orgs) none =
      (Event.listOrgs :: (processOrgs st orgs).1,
       (processOrgs st orgs).2.1, (processOrgs st orgs).2.2) :=
  rfl

lemma processOrgs_perr (st : RegState) (orgs : List Nat)
    (h : (listLoop st orgs).2.2 = true) :
    processOrgs st orgs =
      ((listLoop st orgs).1, st, some CmdError.fetchContextFailed) := by
  simp [processOrgs, h]

lemma processOrgs_ok (st : RegState) (orgs : List Nat)
    (h : (listLoop st orgs).2.2 = false) :
    processOrgs st orgs =
      ((listLoop st orgs).1 ++
         (regenLoop st (regenOrgsOf (listLoop st orgs).2.1 orgs)).1,
       (regenLoop st (regenOrgsOf (listLoop st orgs).2.1 orgs)).2.1,
       if (regenLoop st (regenOrgsOf (listLoop st orgs).2.1 orgs)).2.2 = true
         then some CmdError.regenFailed else none) := by
  by_cases h2 :
      (regenLoop st (regenOrgsOf (listLoop st orgs).2.1 orgs)).2.2 = true <;>
    simp [processOrgs, h, h2]

/-- C6: in the bulk path a failure while listing an organization's keypairs
aborts processing: the command returns the fetch-context error, issues no
generation request at all (so none for that organization), and leaves the
registry unchanged. -/
theorem list_failure_aborts (st : RegState) (orgs : List Nat) (o : Nat)
    (ho : o ∈ orgs) (hf : o ∈ st.listFail) :
    (generateKeypairsCmd st true "" (some orgs) none).2.2
      = some CmdError.fetchContextFailed ∧
    (∀ o', Event.generate o' ∉
      (generateKeypairsCmd st true "" (some orgs) none).1) ∧
    (generateKeypairsCmd st true "" (some orgs) none).2.1 = st := by
  have hperr : (listLoop st orgs).2.2 = true := by
    rw [listLoop_perr, List.any_eq_true]
    exact ⟨o, ho, by simp [hf]⟩
  rw [generateKeypairsCmd_all, processOrgs_perr st orgs hperr]
  refine ⟨rfl, ?_, rfl⟩
  intro o' hmem
  rcases List.mem_cons.mp hmem with h | h
  · exact Event.noConfusion h
  · exact generate_not_mem_listLoop st orgs o' h

/-- Witness for C6: listing fails for org 1. -/
theorem list_failure_aborts_witness :
    (generateKeypairsCmd ⟨[], [1], []⟩ true "" (some [1]) none).2.2
      = some CmdError.fetchContextFailed ∧
    (∀ o', Event.generate o' ∉
      (generateKeypairsCmd ⟨[], [1], []⟩ true "" (some [1]) none).1) ∧
    (generateKeypairsCmd ⟨[], [1], []⟩ true "" (some [1]) none).2.1
      = ⟨[], [1], []⟩ :=
  list_failure_aborts ⟨[], [1], []⟩ [1] 1 (by decide) (by decide)

/-- C5: in the bulk path the candidate organizations are enumerated exactly
once (one `Orgs.List` request), each organization's keypair listing is fetched
at most once, and the trace splits into a generation-free prefix followed by a
listing-free suffix: every `Keypairs.List` call completes before any
`Keypairs.Generate` request is issued. -/
theorem bulk_lists_before_generates (st : RegState) (orgs : List Nat)
    (hnd : orgs.Nodup) :
    ∃ pre post,
      (generateKeypairsCmd st true "" (some orgs) none).1 = pre ++ post ∧
      (∀ e ∈ pre, e.isGenerate = false) ∧
      (∀ e ∈ post, e.isListKeypairs = false) ∧
      (generateKeypairsCmd st true "" (some orgs) none).1.count
        Event.listOrgs = 1 ∧
      ∀ o, (generateKeypairsCmd st true "" (some orgs) none).1.count
        (Event.listKeypairs o) ≤ 1 := by
  have hcount : ∀ o : Nat, orgs.count o ≤ 1 :=
    List.nodup_iff_count_le_one.mp hnd
  have hpre : ∀ e ∈ Event.listOrgs :: (listLoop st orgs).1,
      e.isGenerate = false := by
    intro e he
    rcases List.mem_cons.mp he with rfl | h
    · rfl
    · exact listLoop_no_generate st orgs e h
  rw [generateKeypairsCmd_all]
  by_cases hperr : (listLoop st orgs).2.2 = true
  · rw [processOrgs_perr st orgs hperr]
    refine ⟨Event.listOrgs :: (listLoop st orgs).1, [], by simp, hpre,
      by simp, ?_, ?_⟩
    · rw [List.count_cons_self, List.count_eq_zero.mpr
        (listOrgs_not_mem_listLoop st orgs)]
    · intro o
      rw [List.count_cons_of_ne (by simp)]
      exact le_trans (listLoop_count_le st orgs o) (hcount o)
  · rw [Bool.not_eq_true] at hperr
    rw [processOrgs_ok st orgs hperr]
    refine ⟨Event.listOrgs :: (listLoop st orgs).1,
      (regenLoop st (regenOrgsOf (listLoop st orgs).2.1 orgs)).1,
      by simp, hpre, regenLoop_no_list st _, ?_, ?_⟩
    · simp only [List.cons_append]
      rw [List.count_cons_self, List.count_append,
        List.count_eq_zero.mpr (listOrgs_not_mem_listLoop st orgs),
        List.count_eq_zero.mpr (listOrgs_not_mem_regenLoop st _)]
    · intro o
      simp only [List.cons_append]
      rw [List.count_cons_of_ne (by simp), List.count_append,
        List.count_eq_zero.mpr (listKeypairs_not_mem_regenLoop st _ o)]
      simpa using le_trans (listLoop_count_le st orgs o) (hcount o)

/-- Witness for C5: two distinct orgs, one of them missing keys. -/
theorem bulk_lists_before_generates_witness :
    ∃ pre post,
      (generateKeypairsCmd ⟨[⟨1, .signing, none⟩, ⟨1, .encryption, none⟩],
        [], []⟩ true "" (some [1, 2]) none).1 = pre ++ post ∧
      (∀ e ∈ pre, e.isGenerate = false) ∧
      (∀ e ∈ post, e.isListKeypairs = false) ∧
      (generateKeypairsCmd ⟨[⟨1, .signing, none⟩, ⟨1, .encryption, none⟩],
        [], []⟩ true "" (some [1, 2]) none).1.count Event.listOrgs = 1 ∧
      ∀ o, (generateKeypairsCmd ⟨[⟨1, .signing, none⟩, ⟨1, .encryption, none⟩],
        [], []⟩ true "" (some [1, 2]) none).1.count
          (Event.listKeypairs o) ≤ 1 :=
  bulk_lists_before_generates
    ⟨[⟨1, .signing, none⟩, ⟨1, .encryption, none⟩], [], []⟩ [1, 2] (by decide)

/-- C1 counterexample: orgs 10 and 20 both lack keys and generation for
org 10 fails. The bulk command then issues no generation request at all for
org 20 — the remaining organization missing keys — and returns the bare
`regenFailed` error (a constructor carrying neither a succeeded nor a failed
set), refuting both parts of the claim. -/
theorem bulk_partial_failure_counterexample :
    (Event.generate 20 ∉
      (generateKeypairsCmd ⟨[], [], [10]⟩ true "" (some [10, 20]) none).1) ∧
    20 ∈ regenOrgsOf
      (listLoop (⟨[], [], [10]⟩ : RegState) [10, 20]).2.1 [10, 20] ∧
    (generateKeypairsCmd ⟨[], [], [10]⟩ true "" (some [10, 20]) none).2.2
      = some CmdError.regenFailed := by
  decide

/-- C1 amended: in the bulk path the first generation failure aborts the
remaining organizations: generation requests are issued in order exactly for
the orgs of `genAttempts` — all orgs missing keys up to and including the
first failing one — and the aggregate result is the bare `regenFailed` error,
which carries neither the succeeded nor the failed set. -/
theorem bulk_failure_short_circuits (st : RegState) (orgs : List Nat)
    (hp : (listLoop st orgs).2.2 = false) (o : Nat)
    (ho : o ∈ regenOrgsOf (listLoop st orgs).2.1 orgs)
    (hg : o ∈ st.genFail) :
    (generateKeypairsCmd st true "" (some orgs) none).2.2
      = some CmdError.regenFailed ∧
    (generateKeypairsCmd st true "" (some orgs) none).1.filter
        (fun e => e.isGenerate)
      = (genAttempts st.genFail
          (regenOrgsOf (listLoop st orgs).2.1 orgs)).map Event.generate := by
  have hrerr :
      (regenLoop st (regenOrgsOf (listLoop st orgs).2.1 orgs)).2.2 = true := by
    rw [regenLoop_rerr, List.any_eq_true]
    exact ⟨o, ho, by simp [hg]⟩
  rw [generateKeypairsCmd_all, processOrgs_ok st orgs hp]
  refine ⟨by simp [hrerr], ?_⟩
  simp only [List.cons_append]  -- trace = listOrgs :: (l.1 ++ g.1)
  rw [List.filter_cons_of_neg (by simp [Event.isGenerate])]
  rw [List.filter_append]
  rw [List.filter_eq_nil_iff.mpr ?nogen]
  case nogen =>
    intro e he
    simp [listLoop_no_generate st orgs e he]
  rw [List.nil_append,
    List.filter_eq_self.mpr ?allgen]
  case allgen =>
    intro e he
    simp [regenLoop_all_generate _ st e he]
  exact regenLoop_events _ st

/-- Witness for C1's amended theorem, at the counterexample input. -/
theorem bulk_failure_short_circuits_witness :
    (generateKeypairsCmd ⟨[], [], [10]⟩ true "" (some [10, 20]) none).2.2
      = some CmdError.regenFailed ∧
    (generateKeypairsCmd ⟨[], [], [10]⟩ true "" (some [10, 20]) none).1.filter
        (fun e => e.isGenerate)
      = (genAttempts [10]
          (regenOrgsOf
            (listLoop (⟨[], [], [10]⟩ : RegState) [10, 20]).2.1
            [10, 20])).map Event.generate :=
  bulk_failure_short_circuits ⟨[], [], [10]⟩ [10, 20] (by decide) 10
    (by decide) (by decide)

/-- C9: `generateKeypairsForOrg` never checks key-completeness. For every
non-nil org id — supplied directly, or the first org of the org listing when
the id is nil and `lookupOrg` is true — it issues exactly one generation
request, without any keypair-listing request, regardless of the registry's
contents; with a nil id and `lookupOrg` false it fails without issuing any
registry request. -/
theorem forOrg_generates_unconditionally (st : RegState)
    (orgsList : Option (List Nat)) :
    (∀ (oid : Nat) (lookupOrg : Bool),
      (generateKeypairsForOrg st (some oid) lookupOrg orgsList).1.filter
          (fun e => e.isGenerate) = [Event.generate oid] ∧
      ∀ e ∈ (generateKeypairsForOrg st (some oid) lookupOrg orgsList).1,
        e.isListKeypairs = false) ∧
    (∀ (o : Nat) (rest : List Nat), orgsList = some (o :: rest) →
      (generateKeypairsForOrg st none true orgsList).1.filter
          (fun e => e.isGenerate) = [Event.generate o] ∧
      ∀ e ∈ (generateKeypairsForOrg st none true orgsList).1,
        e.isListKeypairs = false) ∧
    generateKeypairsForOrg st none false orgsList
      = ([], st, some CmdError.generateForOrgFailed) := by
  refine ⟨?_, ?_, rfl⟩
  · intro oid lookupOrg
    by_cases h : oid ∈ st.genFail <;>
      cases lookupOrg <;>
        simp [generateKeypairsForOrg, h, Event.isGenerate, Event.isListKeypairs]
  · rintro o rest rfl
    by_cases h : o ∈ st.genFail <;>
      simp [generateKeypairsForOrg, h, Event.isGenerate, Event.isListKeypairs]

/-- Witness for C9: org 3 is already key-complete, yet a generation request is
still issued on both non-nil-id paths. -/
theorem forOrg_generates_unconditionally_witness :
    keyComplete ⟨[⟨3, .signing, none⟩, ⟨3, .encryption, none⟩], [], []⟩ 3
      = true ∧
    (generateKeypairsForOrg
        ⟨[⟨3, .signing, none⟩, ⟨3, .encryption, none⟩], [], []⟩
        (some 3) false (some [3])).1.filter (fun e => e.isGenerate)
      = [Event.generate 3] ∧
    (generateKeypairsForOrg
        ⟨[⟨3, .signing, none⟩, ⟨3, .encryption, none⟩], [], []⟩
        none true (some [3])).1.filter (fun e => e.isGenerate)
      = [Event.generate 3] ∧
    generateKeypairsForOrg
        ⟨[⟨3, .signing, none⟩, ⟨3, .encryption, none⟩], [], []⟩
        none false (some [3])
      = ([], ⟨[⟨3, .signing, none⟩, ⟨3, .encryption, none⟩], [], []⟩,
          some CmdError.generateForOrgFailed) := by
  have h := forOrg_generates_unconditionally
    ⟨[⟨3, .signing, none⟩, ⟨3, .encryption, none⟩], [], []⟩ (some [3])
  exact ⟨by decide, (h.1 3 false).1, (h.2.1 3 [] rfl).1, h.2.2⟩

end Torus
